import Mathlib

/-!
Verification of the tt task tracker core (task.hpp, main.cpp).

The development shallowly embeds the item storage and identity engine:
the Task record and its enums, the record codec (task_to_fstream and
task_from_fstream), the listing operations of TaskTracker, the status
machine (roll_status and rollback_status), and the store-level commands
from main.cpp.  C++ streams are modelled as lists of characters, u64
values as Nat with explicit bounds where they matter, and thrown
exceptions as Option / error results.
-/

namespace TT

/-- Scope enum from task.hpp: global = 0, local = 1.  The identifier
named local in the source is rendered local' here because local is a
reserved word in Lean. -/
inductive Scope where
  | global
  | local'
deriving DecidableEq

/-- Type enum from task.hpp: task = 0, bug = 1, feature = 2.  Renamed
TaskType because Type is reserved in Lean. -/
inductive TaskType where
  | task
  | bug
  | feature
deriving DecidableEq

/-- Status enum from task.hpp: not_started = 0, in_progress = 1, done = 2. -/
inductive Status where
  | not_started
  | in_progress
  | done
deriving DecidableEq

/-- as_num on Scope: the integer discriminant. -/
def scopeN : Scope → Nat
  | Scope.global => 0
  | Scope.local' => 1

/-- as_num on Type: the integer discriminant. -/
def typeN : TaskType → Nat
  | TaskType.task => 0
  | TaskType.bug => 1
  | TaskType.feature => 2

/-- as_num on Status: the integer discriminant. -/
def statusN : Status → Nat
  | Status.not_started => 0
  | Status.in_progress => 1
  | Status.done => 2

/-- as(Scope) from task.hpp: values above Scope::local throw. -/
def asScope : Nat → Option Scope
  | 0 => some Scope.global
  | 1 => some Scope.local'
  | _ => none

/-- as(Type) from task.hpp: values above Type::feature throw. -/
def asType : Nat → Option TaskType
  | 0 => some TaskType.task
  | 1 => some TaskType.bug
  | 2 => some TaskType.feature
  | _ => none

/-- as(Status) from task.hpp: values above Status::done throw. -/
def asStatus : Nat → Option Status
  | 0 => some Status.not_started
  | 1 => some Status.in_progress
  | 2 => some Status.done
  | _ => none

/-- The Task record of task.hpp: m_id (u64), m_scope, m_type, m_status,
m_desc (std::string, modelled as a list of characters). -/
structure Task where
  id : Nat
  scope : Scope
  type : TaskType
  status : Status
  desc : List Char
deriving DecidableEq

/-- Task::roll_status: throws if status is done, otherwise moves the
status one enum value forward through as(Status).  The thrown exception
is modelled as none. -/
def roll_status (t : Task) : Option Task :=
  if t.status = Status.done then none
  else (asStatus (statusN t.status + 1)).map fun s => { t with status := s }

/-- Task::rollback_status: throws if status is not_started, otherwise
moves the status one enum value backward through as(Status). -/
def rollback_status (t : Task) : Option Task :=
  if t.status = Status.not_started then none
  else (asStatus (statusN t.status - 1)).map fun s => { t with status := s }

/-! ## Record codec -/

/-- The characters treated as whitespace by the C locale isspace used by
operator>> and std::ws: space, tab, newline, vertical tab, form feed,
carriage return. -/
def isSpaceChar (c : Char) : Bool :=
  c == ' ' || c == '\t' || c == '\n' || c == '\x0b' || c == '\x0c' || c == '\r'

/-- The character for a decimal digit value. -/
def digitChar (d : Nat) : Char := Char.ofNat (48 + d)

/-- Decimal rendering helper: most significant digit first, with fuel for
structural termination (fuel at least the value suffices). -/
def natToDecAux : Nat → Nat → List Char
  | 0, _ => []
  | fuel + 1, n => if n = 0 then [] else natToDecAux fuel (n / 10) ++ [digitChar (n % 10)]

/-- The decimal text operator<< writes for an unsigned value. -/
def natToDec (n : Nat) : List Char :=
  if n = 0 then ['0'] else natToDecAux n n

/-- The digit-consuming loop of operator>> on an unsigned: consume
decimal digits, accumulating the value. -/
def readDigitsAux : List Char → Nat → Nat × List Char
  | [], acc => (acc, [])
  | c :: cs, acc =>
    if c.isDigit then readDigitsAux cs (10 * acc + (c.toNat - 48)) else (acc, c :: cs)

/-- Stream extraction of a u64 (ifs >> n): skip leading whitespace, then
read decimal digits.  A stream with no digit at that point fails
(failbit), modelled as none; a value that does not fit in 64 bits also
sets failbit and is modelled as none. -/
def readU64 (s : List Char) : Option (Nat × List Char) :=
  match s.dropWhile isSpaceChar with
  | [] => none
  | c :: cs =>
    if c.isDigit then
      let p := readDigitsAux (c :: cs) 0
      if p.1 < 2 ^ 64 then some p else none
    else none

/-- task_to_fstream: one line per scalar discriminant (id, scope, type,
status) followed by the description verbatim and a final newline. -/
def encodeTask (t : Task) : List Char :=
  natToDec t.id ++ '\n' ::
    (natToDec (scopeN t.scope) ++ '\n' ::
      (natToDec (typeN t.type) ++ '\n' ::
        (natToDec (statusN t.status) ++ '\n' ::
          (t.desc ++ ['\n']))))

/-- task_from_fstream: read the four scalar lines (each ifs >> n skips
leading whitespace itself, each is followed by an explicit ifs >> std::ws),
validate each discriminant through as(...), then take every remaining
character as the description and remove the last one (text.pop_back()).
pop_back on an empty string is undefined behaviour in C++ and is modelled
as a failing decode. -/
def decodeTask (s : List Char) : Option Task :=
  match readU64 s with
  | none => none
  | some (idv, s1) =>
    match readU64 (s1.dropWhile isSpaceChar) with
    | none => none
    | some (scv, s2) =>
      match asScope scv with
      | none => none
      | some sc =>
        match readU64 (s2.dropWhile isSpaceChar) with
        | none => none
        | some (tyv, s3) =>
          match asType tyv with
          | none => none
          | some ty =>
            match readU64 (s3.dropWhile isSpaceChar) with
            | none => none
            | some (stv, s4) =>
              match asStatus stv with
              | none => none
              | some st =>
                let text := s4.dropWhile isSpaceChar
                if text = [] then none
                else some (Task.mk idv sc ty st text.dropLast)

/-! ## Listing and ordering -/

/-- The sort key realised by the defaulted Task::operator<=>: memberwise
lexicographic comparison of id, scope, type, status, description. -/
def taskKey (t : Task) : Nat ×ₗ (Nat ×ₗ (Nat ×ₗ (Nat ×ₗ List Char))) :=
  toLex (t.id, toLex (scopeN t.scope, toLex (typeN t.type, toLex (statusN t.status, t.desc))))

/-- The ordering used by std::ranges::sort(tasks, std::ranges::greater())
in TaskTracker::all_tasks_where: a comes no later than b in the output
when a is at least b under operator<=>. -/
def taskGE (a b : Task) : Prop := taskKey b ≤ taskKey a

instance : DecidableRel taskGE :=
  fun a b => inferInstanceAs (Decidable (taskKey b ≤ taskKey a))

instance : IsTotal Task taskGE :=
  ⟨fun a b => le_total (taskKey b) (taskKey a)⟩

instance : IsTrans Task taskGE :=
  ⟨fun _ _ _ hab hbc => le_trans hbc hab⟩

/-- TaskTracker::all_tasks_where over a decoded directory snapshot: keep
the tasks satisfying the predicate and sort descending.  std::ranges::sort
with greater produces the unique list sorted under the total antisymmetric
order taskGE, which insertion sort computes; independence from the
directory iteration order is proved separately. -/
def all_tasks_where (snapshot : List Task) (pred : Task → Bool) : List Task :=
  List.insertionSort taskGE (snapshot.filter pred)

/-- TaskTracker::all_tasks_not_done: the listing filtered to tasks whose
status is not done. -/
def all_tasks_not_done (snapshot : List Task) : List Task :=
  all_tasks_where snapshot (fun t => t.status != Status.done)

/-- TaskTracker::get_task(Offset): snapshot the non-done local listing,
throw if it is empty, throw if the offset is out of range, otherwise
index into it.  The snapshot argument is the decoded content of the
local (private-scope) directory of the current user. -/
def get_task_offset (snapshot : List Task) (off : Nat) : Option Task :=
  let tasks := all_tasks_not_done snapshot
  if tasks = [] then none
  else if h : tasks.length ≤ off then none
  else some (tasks.get ⟨off, Nat.lt_of_not_le h⟩)

/-! ## Store and tracker commands -/

/-- The filesystem store: one slot per (scope directory, id filename).
Local tasks live in the per-user subdirectory, global tasks in the shared
tasks directory; a single fixed current user is modelled. -/
def Store := Scope → Nat → Option Task

/-- TaskTracker::save_task: truncate-and-write the record at
task_path(task), keyed by the task scope and id. -/
def save_task (store : Store) (t : Task) : Store :=
  fun sc i => if sc = t.scope ∧ i = t.id then some t else store sc i

/-- TaskTracker::new_task: save a task with status not_started. -/
def new_task (store : Store) (id : Nat) (sc : Scope) (ty : TaskType) (d : List Char) : Store :=
  save_task store (Task.mk id sc ty Status.not_started d)

/-- TaskTracker::change_task_status: set the status on the in-memory
task, then save it.  Returns the new store and the saved task. -/
def change_task_status (store : Store) (t : Task) (st : Status) : Store × Task :=
  let u := { t with status := st }
  (save_task store u, u)

/-- TaskTracker::resolve_task. -/
def resolve_task (store : Store) (t : Task) : Store × Task :=
  change_task_status store t Status.done

/-- TaskTracker::roll: Task::roll_status then save_task.  When
roll_status throws, save_task is never reached and the error propagates. -/
def TaskTracker.roll (store : Store) (t : Task) : Store × Option String :=
  match roll_status t with
  | none => (store, some "Cannot roll task with status done.")
  | some u => (save_task store u, none)

/-- TaskTracker::rollback: Task::rollback_status then save_task. -/
def TaskTracker.rollback (store : Store) (t : Task) : Store × Option String :=
  match rollback_status t with
  | none => (store, some "Cannot rollback task with status not started.")
  | some u => (save_task store u, none)

/-- now_sys_ns cast to ID in TaskTracker::next_id: the wall-clock reading
in nanoseconds, truncated to u64 by static_cast. -/
def next_id (clock_ns : Nat) : Nat := clock_ns % 2 ^ 64

/-- Modelled from the spec: trim_left from util.hpp (absent from src)
strips leading whitespace. -/
def trim_left (s : List Char) : List Char := s.dropWhile isSpaceChar

/-- Modelled from the spec: trim_right from util.hpp (absent from src)
strips trailing whitespace. -/
def trim_right (s : List Char) : List Char := (s.reverse.dropWhile isSpaceChar).reverse

/-- spaces_only from main.cpp: all characters are whitespace. -/
def spaces_only (s : List Char) : Bool := s.all isSpaceChar

/-- desc_from_opt_or_editor from main.cpp, applied to the raw description
text obtained from the message option or the editor: trim both ends, then
throw (modelled as none) when the result is empty or whitespace-only. -/
def desc_from_opt_or_editor (raw : List Char) : Option (List Char) :=
  let d := trim_right (trim_left raw)
  if d.isEmpty || spaces_only d then none else some d

/-- tt_cmd_push from main.cpp: the id is allocated by the caller once via
next_id before anything is written; the description is validated; then a
global record is written when the global flag is set, and a local record
is written unless only the global flag is set. -/
def tt_cmd_push (store : Store) (id : Nat) (ty : TaskType) (raw : List Char)
    (gflag lflag : Bool) : Store × Option String :=
  match desc_from_opt_or_editor raw with
  | none => (store, some "Empty message. Aborting creation.")
  | some d =>
    if gflag then
      let store1 := new_task store id Scope.global ty d
      if lflag then (new_task store1 id Scope.local' ty d, none)
      else (store1, none)
    else (new_task store id Scope.local' ty d, none)

/-! ## Status machine theorems -/

/-- C4: advance (roll_status) fails exactly when the status is already
done and otherwise moves the status exactly one step forward; revert
(rollback_status) fails exactly when the status is already not_started
and otherwise moves the status exactly one step backward. -/
theorem roll_one_step_spec (t : Task) :
    (roll_status t = none ↔ t.status = Status.done)
    ∧ (∀ u, roll_status t = some u → statusN u.status = statusN t.status + 1)
    ∧ (rollback_status t = none ↔ t.status = Status.not_started)
    ∧ (∀ u, rollback_status t = some u → statusN u.status + 1 = statusN t.status) := by
  obtain ⟨i, sc, ty, st, d⟩ := t
  cases st <;> simp [roll_status, rollback_status, asStatus, statusN]

/-- Witness for C4: a not_started task advances to in_progress
(statusN 1 = statusN 0 + 1) and an in_progress task reverts to
not_started. -/
theorem roll_one_step_spec_witness :
    statusN (Task.mk 0 Scope.global TaskType.task Status.in_progress []).status
        = statusN (Task.mk 0 Scope.global TaskType.task Status.not_started []).status + 1
    ∧ statusN (Task.mk 0 Scope.global TaskType.task Status.not_started []).status + 1
        = statusN (Task.mk 0 Scope.global TaskType.task Status.in_progress []).status :=
  ⟨(roll_one_step_spec (Task.mk 0 Scope.global TaskType.task Status.not_started [])).2.1
      (Task.mk 0 Scope.global TaskType.task Status.in_progress []) (by decide),
    (roll_one_step_spec (Task.mk 0 Scope.global TaskType.task Status.in_progress [])).2.2.2
      (Task.mk 0 Scope.global TaskType.task Status.not_started []) (by decide)⟩

/-- C5: on a task whose status is not done, advancing and then reverting
restores the original task, in particular its original status. -/
theorem roll_then_rollback (t : Task) (h : t.status ≠ Status.done) :
    (roll_status t).bind rollback_status = some t := by
  obtain ⟨i, sc, ty, st, d⟩ := t
  cases st <;> simp_all [roll_status, rollback_status, asStatus, statusN]

/-- Witness for C5 at a concrete not_started task. -/
theorem roll_then_rollback_witness :
    (roll_status (Task.mk 3 Scope.local' TaskType.bug Status.not_started ['a'])).bind
        rollback_status
      = some (Task.mk 3 Scope.local' TaskType.bug Status.not_started ['a']) :=
  roll_then_rollback (Task.mk 3 Scope.local' TaskType.bug Status.not_started ['a'])
    (by decide)

/-- C8: when TaskTracker::roll fails because the status is done, or
TaskTracker::rollback fails because the status is not_started, the error
is reported and the store is returned untouched: save_task is never
reached, so no record is rewritten. -/
theorem transition_fail_no_write (store : Store) (t : Task) :
    (t.status = Status.done →
      TaskTracker.roll store t = (store, some "Cannot roll task with status done."))
    ∧ (t.status = Status.not_started →
      TaskTracker.rollback store t
        = (store, some "Cannot rollback task with status not started.")) := by
  constructor
  · intro h
    simp [TaskTracker.roll, roll_status, h]
  · intro h
    simp [TaskTracker.rollback, rollback_status, h]

/-- Witness for C8: a done task cannot roll and an untouched empty store
is returned; a not_started task cannot rollback likewise. -/
theorem transition_fail_no_write_witness :
    TaskTracker.roll (fun _ _ => none) (Task.mk 1 Scope.global TaskType.task Status.done [])
        = ((fun _ _ => none), some "Cannot roll task with status done.")
    ∧ TaskTracker.rollback (fun _ _ => none)
          (Task.mk 1 Scope.global TaskType.task Status.not_started [])
        = ((fun _ _ => none), some "Cannot rollback task with status not started.") :=
  ⟨(transition_fail_no_write (fun _ _ => none)
      (Task.mk 1 Scope.global TaskType.task Status.done [])).1 rfl,
    (transition_fail_no_write (fun _ _ => none)
      (Task.mk 1 Scope.global TaskType.task Status.not_started [])).2 rfl⟩

/-- C10: resolve, roll and rollback change only the status field: the
record persisted at the task key keeps the original id, scope, type and
description, and every other key of the store is untouched. -/
theorem status_ops_frame (store : Store) (t : Task) :
    (∀ sc i, (resolve_task store t).1 sc i
        = if sc = t.scope ∧ i = t.id
          then some (Task.mk t.id t.scope t.type Status.done t.desc)
          else store sc i)
    ∧ (∀ u, roll_status t = some u →
        u.id = t.id ∧ u.scope = t.scope ∧ u.type = t.type ∧ u.desc = t.desc
        ∧ ∀ sc i, (TaskTracker.roll store t).1 sc i
            = if sc = t.scope ∧ i = t.id then some u else store sc i)
    ∧ (∀ u, rollback_status t = some u →
        u.id = t.id ∧ u.scope = t.scope ∧ u.type = t.type ∧ u.desc = t.desc
        ∧ ∀ sc i, (TaskTracker.rollback store t).1 sc i
            = if sc = t.scope ∧ i = t.id then some u else store sc i) := by
  refine ⟨?_, ?_, ?_⟩
  · intro sc i
    simp [resolve_task, change_task_status, save_task]
  · intro u h
    obtain ⟨i0, sc0, ty0, st0, d0⟩ := t
    cases st0 <;> simp_all [roll_status, asStatus, statusN] <;>
      (subst h; exact ⟨rfl, rfl, rfl, rfl, fun sc i => by
        simp [TaskTracker.roll, roll_status, asStatus, statusN, save_task]⟩)
  · intro u h
    obtain ⟨i0, sc0, ty0, st0, d0⟩ := t
    cases st0 <;> simp_all [rollback_status, asStatus, statusN] <;>
      (subst h; exact ⟨rfl, rfl, rfl, rfl, fun sc i => by
        simp [TaskTracker.rollback, rollback_status, asStatus, statusN, save_task]⟩)

/-- Witness for C10: rolling a concrete not_started task preserves id,
scope, type and description. -/
theorem status_ops_frame_witness :
    (Task.mk 9 Scope.local' TaskType.feature Status.in_progress ['z']).id
        = (Task.mk 9 Scope.local' TaskType.feature Status.not_started ['z']).id
    ∧ (Task.mk 9 Scope.local' TaskType.feature Status.in_progress ['z']).scope
        = (Task.mk 9 Scope.local' TaskType.feature Status.not_started ['z']).scope := by
  have h := (status_ops_frame (fun _ _ => none)
      (Task.mk 9 Scope.local' TaskType.feature Status.not_started ['z'])).2.1
      (Task.mk 9 Scope.local' TaskType.feature Status.in_progress ['z']) (by decide)
  exact ⟨h.1, h.2.1⟩

/-! ## Creation theorems -/

/-- C7: when the supplied description is empty or whitespace-only after
trimming both ends, tt_cmd_push reports the empty-message error and
returns the store unchanged: the description is validated before any
new_task write. -/
theorem push_empty_desc (store : Store) (id : Nat) (ty : TaskType) (raw : List Char)
    (gflag lflag : Bool)
    (h : ((trim_right (trim_left raw)).isEmpty || spaces_only (trim_right (trim_left raw))) = true) :
    tt_cmd_push store id ty raw gflag lflag = (store, some "Empty message. Aborting creation.") := by
  simp only [tt_cmd_push, desc_from_opt_or_editor]
  rw [if_pos h]

/-- Witness for C7: pushing a whitespace-only description onto the empty
store fails and writes nothing. -/
theorem push_empty_desc_witness :
    tt_cmd_push (fun _ _ => none) 5 TaskType.task [' ', '\n', '\t'] true true
      = ((fun _ _ => none), some "Empty message. Aborting creation.") :=
  push_empty_desc (fun _ _ => none) 5 TaskType.task [' ', '\n', '\t'] true true (by decide)

/-- C9: pushing with both the global and the local flag set writes
exactly two records, one global and one local, both carrying the single
id allocated before either write, and touches no other key. -/
theorem push_both_scopes (store : Store) (id : Nat) (ty : TaskType) (raw d : List Char)
    (hd : desc_from_opt_or_editor raw = some d) :
    (tt_cmd_push store id ty raw true true).2 = none
    ∧ (tt_cmd_push store id ty raw true true).1 Scope.global id
        = some (Task.mk id Scope.global ty Status.not_started d)
    ∧ (tt_cmd_push store id ty raw true true).1 Scope.local' id
        = some (Task.mk id Scope.local' ty Status.not_started d)
    ∧ ∀ sc i, ¬(sc = Scope.global ∧ i = id) → ¬(sc = Scope.local' ∧ i = id) →
        (tt_cmd_push store id ty raw true true).1 sc i = store sc i := by
  have hpush : tt_cmd_push store id ty raw true true
      = (new_task (new_task store id Scope.global ty d) id Scope.local' ty d, none) := by
    simp [tt_cmd_push, hd]
  refine ⟨by rw [hpush], ?_, ?_, ?_⟩
  · rw [hpush]
    simp [new_task, save_task]
  · rw [hpush]
    simp [new_task, save_task]
  · intro sc i h1 h2
    rw [hpush]
    simp only [new_task, save_task]
    rw [if_neg, if_neg]
    · exact fun hc => h1 ⟨hc.1, hc.2⟩
    · exact fun hc => h2 ⟨hc.1, hc.2⟩

/-- Witness for C9 at a concrete description and empty store. -/
theorem push_both_scopes_witness :
    (tt_cmd_push (fun _ _ => none) 7 TaskType.bug ['h', 'i'] true true).1 Scope.global 7
      = some (Task.mk 7 Scope.global TaskType.bug Status.not_started ['h', 'i']) :=
  (push_both_scopes (fun _ _ => none) 7 TaskType.bug ['h', 'i'] ['h', 'i'] (by decide)).2.1

/-! ## Identity theorems -/

/-- C6: over any sequence of creations whose wall-clock readings (in
nanoseconds, each representable in 64 bits) are strictly increasing —
the monotonic-clock assumption the design states, with same-tick
creations excluded as the spec's open risk — the ids produced by
next_id are strictly increasing. -/
theorem next_id_strict_mono (clocks : List Nat)
    (hmono : clocks.Pairwise (· < ·)) (hrange : ∀ c ∈ clocks, c < 2 ^ 64) :
    (clocks.map next_id).Pairwise (· < ·) := by
  rw [List.pairwise_map]
  refine hmono.imp_of_mem ?_
  intro a b ha hb hab
  unfold next_id
  rw [Nat.mod_eq_of_lt (hrange a ha), Nat.mod_eq_of_lt (hrange b hb)]
  exact hab

/-- Witness for C6 on a concrete strictly increasing clock sequence. -/
theorem next_id_strict_mono_witness :
    (List.map next_id [1, 2, 500]).Pairwise (· < ·) :=
  next_id_strict_mono [1, 2, 500] (by decide) (by decide)

/-! ## Codec lemmas -/

theorem isSpaceChar_iff (c : Char) :
    isSpaceChar c = true ↔
      c = ' ' ∨ c = '\t' ∨ c = '\n' ∨ c = '\x0b' ∨ c = '\x0c' ∨ c = '\r' := by
  simp [isSpaceChar, or_assoc]

theorem not_space_of_digit {c : Char} (h : c.isDigit = true) : isSpaceChar c = false := by
  cases hsp : isSpaceChar c
  · rfl
  · exfalso
    rcases (isSpaceChar_iff c).1 hsp with rfl | rfl | rfl | rfl | rfl | rfl <;>
      exact absurd h (by decide)

theorem toNat_digitChar {d : Nat} (h : d < 10) : (digitChar d).toNat = 48 + d := by
  interval_cases d <;> decide

theorem isDigit_digitChar {d : Nat} (h : d < 10) : (digitChar d).isDigit = true := by
  interval_cases d <;> decide

theorem natToDecAux_digits : ∀ fuel n, ∀ c ∈ natToDecAux fuel n, c.isDigit = true := by
  intro fuel
  induction fuel with
  | zero => intro n c hc; simp [natToDecAux] at hc
  | succ f ih =>
    intro n c hc
    by_cases hn : n = 0
    · simp [natToDecAux, hn] at hc
    · simp only [natToDecAux, if_neg hn, List.mem_append, List.mem_singleton] at hc
      rcases hc with hc | hc
      · exact ih _ _ hc
      · subst hc
        exact isDigit_digitChar (Nat.mod_lt _ (by norm_num))

theorem natToDec_digits (n : Nat) : ∀ c ∈ natToDec n, c.isDigit = true := by
  intro c hc
  by_cases hn : n = 0
  · simp [natToDec, hn] at hc
    subst hc
    decide
  · rw [natToDec, if_neg hn] at hc
    exact natToDecAux_digits n n c hc

theorem natToDec_ne_nil (n : Nat) : natToDec n ≠ [] := by
  by_cases hn : n = 0
  · simp [natToDec, hn]
  · obtain ⟨m, rfl⟩ := Nat.exists_eq_succ_of_ne_zero hn
    simp [natToDec, natToDecAux]

theorem readDigitsAux_append (rest : List Char)
    (hr : ∀ c, rest.head? = some c → c.isDigit = false) :
    ∀ (ds : List Char) (acc : Nat), (∀ c ∈ ds, c.isDigit = true) →
      readDigitsAux (ds ++ rest) acc
        = (ds.foldl (fun a c => 10 * a + (c.toNat - 48)) acc, rest) := by
  intro ds
  induction ds with
  | nil =>
    intro acc _
    cases rest with
    | nil => simp [readDigitsAux]
    | cons r rs =>
      have hrd := hr r rfl
      simp [readDigitsAux, hrd]
  | cons c cs ih =>
    intro acc hd
    have hc := hd c (List.mem_cons_self c cs)
    simp only [List.cons_append, List.foldl_cons, readDigitsAux, hc, if_true]
    exact ih _ (fun x hx => hd x (List.mem_cons_of_mem c hx))

theorem foldl_natToDecAux : ∀ (fuel n acc : Nat), n ≤ fuel →
    (natToDecAux fuel n).foldl (fun a c => 10 * a + (c.toNat - 48)) acc
      = acc * 10 ^ (natToDecAux fuel n).length + n := by
  intro fuel
  induction fuel with
  | zero =>
    intro n acc hn
    have h0 : n = 0 := Nat.le_zero.mp hn
    subst h0
    simp [natToDecAux]
  | succ f ih =>
    intro n acc hn
    by_cases h0 : n = 0
    · subst h0
      simp [natToDecAux]
    · rw [show natToDecAux (f + 1) n = natToDecAux f (n / 10) ++ [digitChar (n % 10)] from
        by simp [natToDecAux, h0]]
      have hle : n / 10 ≤ f := by
        have hlt : n / 10 < n := Nat.div_lt_self (Nat.pos_of_ne_zero h0) (by norm_num)
        omega
      rw [List.foldl_append, List.length_append]
      simp only [List.foldl_cons, List.foldl_nil, List.length_singleton]
      rw [ih (n / 10) acc hle, toNat_digitChar (Nat.mod_lt _ (by norm_num))]
      have hmod : 10 * (n / 10) + n % 10 = n := Nat.div_add_mod n 10
      have hdrop : 48 + n % 10 - 48 = n % 10 := by omega
      rw [hdrop, pow_succ]
      have hring : 10 * (acc * 10 ^ (natToDecAux f (n / 10)).length + n / 10)
          = acc * (10 ^ (natToDecAux f (n / 10)).length * 10) + 10 * (n / 10) := by ring
      omega

theorem foldl_natToDec (n acc : Nat) :
    (natToDec n).foldl (fun a c => 10 * a + (c.toNat - 48)) acc
      = acc * 10 ^ (natToDec n).length + n := by
  by_cases h0 : n = 0
  · subst h0
    have h48 : ('0' : Char).toNat = 48 := rfl
    simp [natToDec, h48]
    omega
  · rw [natToDec, if_neg h0]
    exact foldl_natToDecAux n n acc le_rfl

theorem readU64_natToDec (n : Nat) (hn : n < 2 ^ 64) (rest : List Char)
    (hr : ∀ c, rest.head? = some c → c.isDigit = false) :
    readU64 (natToDec n ++ rest) = some (n, rest) := by
  obtain ⟨c, cs, hcons⟩ : ∃ c cs, natToDec n = c :: cs := by
    rcases h : natToDec n with _ | ⟨c, cs⟩
    · exact absurd h (natToDec_ne_nil n)
    · exact ⟨c, cs, rfl⟩
  have hcd : c.isDigit = true := natToDec_digits n c (by rw [hcons]; exact List.mem_cons_self c cs)
  have hsp : isSpaceChar c = false := not_space_of_digit hcd
  have hval : readDigitsAux (natToDec n ++ rest) 0 = (n, rest) := by
    rw [readDigitsAux_append rest hr (natToDec n) 0 (natToDec_digits n), foldl_natToDec]
    simp
  unfold readU64
  have hdw : (natToDec n ++ rest).dropWhile isSpaceChar = c :: (cs ++ rest) := by
    rw [hcons, List.cons_append, List.dropWhile_cons]
    simp [hsp]
  rw [hdw]
  have hv2 : readDigitsAux (c :: (cs ++ rest)) 0 = (n, rest) := by
    rw [← List.cons_append, ← hcons]
    exact hval
  have hn2 : n < 18446744073709551616 := hn
  simp [hcd, hv2, hn2]

theorem head_nl_not_digit (l : List Char) :
    ∀ c, (('\n' : Char) :: l).head? = some c → c.isDigit = false := by
  intro c h
  simp only [List.head?_cons, Option.some.injEq] at h
  subst h
  decide

theorem readU64_natToDec_nl (n : Nat) (hn : n < 2 ^ 64) (r : List Char) :
    readU64 (natToDec n ++ '\n' :: r) = some (n, '\n' :: r) :=
  readU64_natToDec n hn _ (head_nl_not_digit r)

theorem dropWhile_nl_natToDec (m : Nat) (r : List Char) :
    (('\n' : Char) :: (natToDec m ++ r)).dropWhile isSpaceChar = natToDec m ++ r := by
  obtain ⟨c, cs, hcons⟩ : ∃ c cs, natToDec m = c :: cs := by
    rcases h : natToDec m with _ | ⟨c, cs⟩
    · exact absurd h (natToDec_ne_nil m)
    · exact ⟨c, cs, rfl⟩
  have hsp : isSpaceChar c = false :=
    not_space_of_digit (natToDec_digits m c (by rw [hcons]; exact List.mem_cons_self c cs))
  rw [List.dropWhile_cons, if_pos (by decide : isSpaceChar '\n' = true)]
  rw [hcons, List.cons_append, List.dropWhile_cons]
  simp [hsp]

theorem dropWhile_nl_desc (c : Char) (hc : isSpaceChar c = false) (l : List Char) :
    (('\n' : Char) :: (c :: l)).dropWhile isSpaceChar = c :: l := by
  rw [List.dropWhile_cons, if_pos (by decide : isSpaceChar '\n' = true),
    List.dropWhile_cons]
  simp [hc]

theorem dropLast_cons_append_singleton (c : Char) (cs : List Char) (x : Char) :
    (c :: (cs ++ [x])).dropLast = c :: cs := by
  rw [← List.cons_append, List.dropLast_concat]

theorem asScope_scopeN (sc : Scope) : asScope (scopeN sc) = some sc := by
  cases sc <;> rfl

theorem asType_typeN (ty : TaskType) : asType (typeN ty) = some ty := by
  cases ty <;> rfl

theorem asStatus_statusN (st : Status) : asStatus (statusN st) = some st := by
  cases st <;> rfl

theorem scopeN_lt64 (sc : Scope) : scopeN sc < 2 ^ 64 := by
  cases sc <;> decide

theorem typeN_lt64 (ty : TaskType) : typeN ty < 2 ^ 64 := by
  cases ty <;> decide

theorem statusN_lt64 (st : Status) : statusN st < 2 ^ 64 := by
  cases st <;> decide

/-! ## Codec theorems (C1) -/

/-- C1 counterexample: the claim fails as stated.  A valid item whose
description begins with a whitespace character (here a leading space,
which the spec explicitly includes) is not restored by decode after
encode: the decoder's whitespace skip after the status line consumes the
leading space of the description. -/
theorem decode_encode_leading_ws_cex :
    decodeTask (encodeTask (Task.mk 7 Scope.local' TaskType.task Status.not_started [' ', 'x']))
      ≠ some (Task.mk 7 Scope.local' TaskType.task Status.not_started [' ', 'x']) := by
  decide

/-- C1 amended: decode after encode restores the item for every id
representable in 64 bits and every description that is nonempty and does
not begin with a whitespace character; embedded newlines and trailing
whitespace in the description are preserved verbatim. -/
theorem decode_encode (id : Nat) (sc : Scope) (ty : TaskType) (st : Status)
    (c : Char) (cs : List Char) (hid : id < 2 ^ 64) (hc : isSpaceChar c = false) :
    decodeTask (encodeTask (Task.mk id sc ty st (c :: cs)))
      = some (Task.mk id sc ty st (c :: cs)) := by
  simp [encodeTask, decodeTask, readU64_natToDec_nl id hid,
    readU64_natToDec_nl (scopeN sc) (scopeN_lt64 sc),
    readU64_natToDec_nl (typeN ty) (typeN_lt64 ty),
    readU64_natToDec_nl (statusN st) (statusN_lt64 st),
    dropWhile_nl_natToDec, dropWhile_nl_desc c hc,
    asScope_scopeN, asType_typeN, asStatus_statusN, dropLast_cons_append_singleton]

/-- Witness for C1 (amended) at a concrete item whose description holds
an embedded newline and trailing whitespace. -/
theorem decode_encode_witness :
    decodeTask (encodeTask (Task.mk 5 Scope.global TaskType.bug Status.in_progress
        ['h', 'i', '\n', ' ', 'w', ' ']))
      = some (Task.mk 5 Scope.global TaskType.bug Status.in_progress
        ['h', 'i', '\n', ' ', 'w', ' ']) :=
  decode_encode 5 Scope.global TaskType.bug Status.in_progress 'h' ['i', '\n', ' ', 'w', ' ']
    (by decide) (by decide)

/-! ## Listing lemmas -/

theorem all_tasks_where_perm (s : List Task) (p : Task → Bool) :
    (all_tasks_where s p).Perm (s.filter p) :=
  List.perm_insertionSort taskGE _

theorem all_tasks_where_sorted (s : List Task) (p : Task → Bool) :
    (all_tasks_where s p).Pairwise taskGE :=
  List.sorted_insertionSort taskGE _

theorem taskGE_id_cases {a b : Task} (h : taskGE a b) : b.id < a.id ∨ b.id = a.id := by
  unfold taskGE taskKey at h
  rcases (Prod.Lex.le_iff _ _).1 h with h1 | ⟨h1, _⟩
  · exact Or.inl h1
  · exact Or.inr h1

theorem all_tasks_where_strict (s : List Task) (p : Task → Bool)
    (hids : s.Pairwise (fun a b => a.id ≠ b.id)) :
    (all_tasks_where s p).Pairwise (fun a b => b.id < a.id) := by
  have hsorted : (all_tasks_where s p).Pairwise taskGE := all_tasks_where_sorted s p
  have hfil : (s.filter p).Pairwise (fun a b => a.id ≠ b.id) := hids.filter p
  have hne : (all_tasks_where s p).Pairwise (fun a b => a.id ≠ b.id) :=
    (List.Perm.pairwise_iff (fun h => Ne.symm h) (all_tasks_where_perm s p)).2 hfil
  refine (hsorted.and hne).imp ?_
  intro a b hab
  rcases taskGE_id_cases hab.1 with h | h
  · exact h
  · exact absurd h.symm hab.2

theorem all_tasks_where_canonical (s₁ s₂ : List Task) (p : Task → Bool)
    (hids : s₁.Pairwise (fun a b => a.id ≠ b.id)) (hp : s₁.Perm s₂) :
    all_tasks_where s₂ p = all_tasks_where s₁ p := by
  have hids₂ : s₂.Pairwise (fun a b => a.id ≠ b.id) :=
    (List.Perm.pairwise_iff (fun h => Ne.symm h) hp).1 hids
  have h₁ := all_tasks_where_strict s₁ p hids
  have h₂ := all_tasks_where_strict s₂ p hids₂
  have hperm : (all_tasks_where s₂ p).Perm (all_tasks_where s₁ p) :=
    ((all_tasks_where_perm s₂ p).trans (List.Perm.filter p hp.symm)).trans
      (all_tasks_where_perm s₁ p).symm
  haveI : IsAntisymm Task (fun a b => b.id < a.id) :=
    ⟨fun a b hab hba => absurd (lt_trans hab hba) (lt_irrefl _)⟩
  exact List.eq_of_perm_of_sorted hperm h₂ h₁

/-! ## Listing theorems (C2, C3) -/

/-- C2: over a storage snapshot (whose records carry pairwise distinct
ids, as the one-file-per-id store layout guarantees), the listing is a
permutation of the decoded items satisfying the predicate, it is sorted
strictly descending by id, and it is the same list however the directory
iteration happens to order the snapshot. -/
theorem all_tasks_where_spec (snapshot : List Task) (pred : Task → Bool)
    (hids : snapshot.Pairwise (fun a b => a.id ≠ b.id)) :
    (all_tasks_where snapshot pred).Perm (snapshot.filter pred)
    ∧ (all_tasks_where snapshot pred).Pairwise (fun a b => b.id < a.id)
    ∧ ∀ snapshot₂, snapshot.Perm snapshot₂ →
        all_tasks_where snapshot₂ pred = all_tasks_where snapshot pred :=
  ⟨all_tasks_where_perm snapshot pred,
    all_tasks_where_strict snapshot pred hids,
    fun s₂ hp => all_tasks_where_canonical snapshot s₂ pred hids hp⟩

/-- Witness for C2: a concrete three-task snapshot listed with the
not-done predicate comes out strictly descending by id. -/
theorem all_tasks_where_spec_witness :
    (all_tasks_where
        [Task.mk 2 Scope.local' TaskType.task Status.not_started ['b'],
          Task.mk 1 Scope.local' TaskType.task Status.done ['a'],
          Task.mk 3 Scope.local' TaskType.task Status.in_progress ['c']]
        (fun t => t.status != Status.done)).Pairwise (fun a b => b.id < a.id) :=
  (all_tasks_where_spec
      [Task.mk 2 Scope.local' TaskType.task Status.not_started ['b'],
        Task.mk 1 Scope.local' TaskType.task Status.done ['a'],
        Task.mk 3 Scope.local' TaskType.task Status.in_progress ['c']]
      (fun t => t.status != Status.done) (by decide)).2.1

/-- C3: positional lookup returns exactly the element at the requested
zero-based index of the snapshot of the non-done, descending-sorted
private-scope listing, and it fails exactly when that listing is empty
or the index is out of range. -/
theorem get_task_offset_spec (snapshot : List Task) (off : Nat) :
    get_task_offset snapshot off = (all_tasks_not_done snapshot).get? off
    ∧ (get_task_offset snapshot off = none
        ↔ all_tasks_not_done snapshot = [] ∨ (all_tasks_not_done snapshot).length ≤ off) := by
  have hmain : get_task_offset snapshot off = (all_tasks_not_done snapshot).get? off := by
    unfold get_task_offset
    by_cases h0 : all_tasks_not_done snapshot = []
    · simp [h0]
    · by_cases h1 : (all_tasks_not_done snapshot).length ≤ off
      · simp [h0, h1, List.get?_eq_none.2 h1]
      · simp only [h0, if_false, h1, dif_neg, dite_false]
        exact (List.get?_eq_get (Nat.lt_of_not_le h1)).symm
  refine ⟨hmain, ?_⟩
  rw [hmain]
  constructor
  · intro h
    exact Or.inr (List.get?_eq_none.1 h)
  · intro h
    rcases h with h | h
    · simp [h]
    · exact List.get?_eq_none.2 h

end TT
